import Mathlib

/-!
Shallow embedding of the time-accounting and approval engine of the
payroll/timesheet frontend (nominasubrepartoapp-frontend).

Conventions used throughout the embedding:
* Calendar dates are day indices `d : ℕ` with day `0` a Sunday, so
  `d % 7` coincides with JavaScript `Date.getDay()` (0 = Sunday,
  5 = Friday, 6 = Saturday).  The Monday-to-Sunday week of a day
  (date-fns `startOfWeek`/`endOfWeek` with `weekStartsOn: 1`) is
  identified by `weekKey d = (d + 6) / 7`.
* Times of day are `(hour, minute)` pairs; `timeToMinutes` mirrors the
  source helper `timeToMinutes` (minutes since midnight).
* Decimal hour counts are rationals `ℚ`; JavaScript
  `parseFloat(x.toFixed(2))` is `round2` (no tie can occur on the
  minute grid `k/60`, so round-to-nearest is exact).
* Missing/empty optional fields of the JS objects are `Option.none`.
-/

namespace Nomina

/-- Model of JavaScript `String.prototype.trim`: drop whitespace from
both ends of the string. -/
def jsTrim (s : String) : String :=
  ⟨((s.data.dropWhile Char.isWhitespace).reverse.dropWhile Char.isWhitespace).reverse⟩

/-- Source helper `timeToMinutes`: minutes since midnight of an
`(hour, minute)` pair. -/
def timeToMinutes (t : ℕ × ℕ) : ℤ :=
  (t.1 : ℤ) * 60 + (t.2 : ℤ)

/-- JavaScript `Date.getDay()` for a day index (day 0 is a Sunday):
0 = Sunday, …, 5 = Friday, 6 = Saturday. -/
def dayOfWeek (d : ℕ) : ℕ := d % 7

/-- Identifier of the Monday-to-Sunday week containing day `d`
(date-fns `startOfWeek` with `weekStartsOn: 1`): Monday `1` … Sunday `7`
share key 1, Monday `8` … Sunday `14` share key 2, and so on. -/
def weekKey (d : ℕ) : ℕ := (d + 6) / 7

/-- JavaScript `parseFloat(q.toFixed(2))` on the values produced by the
splitter (which all lie on the grid `k/60`, where no rounding tie can
occur): round to two decimal places. -/
def round2 (q : ℚ) : ℚ := ((round (q * 100) : ℤ) : ℚ) / 100

/-- Per-day maximum hour ceilings (`settings.daily_limits`). -/
structure DailyLimits where
  monday : ℚ
  tuesday : ℚ
  wednesday : ℚ
  thursday : ℚ
  friday : ℚ
  saturday : ℚ
  sunday : ℚ

/-- The settings map consumed by the components.  A `none` field models
a missing (or empty-string) settings key; every consumer substitutes its
documented default.  Time-of-day values are `(hour, minute)` pairs. -/
structure Settings where
  normal_hours_start : Option (ℕ × ℕ) := none
  normal_hours_end : Option (ℕ × ℕ) := none
  normal_hours_end_friday : Option (ℕ × ℕ) := none
  saturday_hours_start : Option (ℕ × ℕ) := none
  saturday_hours_end : Option (ℕ × ℕ) := none
  weekly_limit : Option ℚ := none
  daily_limits : Option DailyLimits := none

/-- A timesheet record (`Reporte` of `services/api`), restricted to the
fields the engine reads.  `aprobado`: `some 0`/`none` pending, `some 1`
approved, `some 2` rejected, `some 3` approved-normal-hours-only. -/
structure Reporte where
  id : ℕ
  documento_id : ℕ
  horas : ℚ
  hora_inicio : Option (ℕ × ℕ) := none
  hora_fin : Option (ℕ × ℕ) := none
  fecha_trabajada : Option ℕ := none
  aprobado : Option ℕ := none
  aprobadopor : Option ℕ := none

/-- Result record of `calculateHoursBreakdown` (hours, two decimals). -/
structure HoursBreakdown where
  normal : ℚ
  extra : ℚ
  total : ℚ

/-- `totalMinutes` of the splitters: `endMin - startMin`, adding 24h
when negative (the midnight-crossing fallback). -/
def totalMinutesOf (startMin endMin : ℤ) : ℤ :=
  if endMin - startMin < 0 then endMin - startMin + 24 * 60 else endMin - startMin

/-- `normalMinutes` of the splitters: the length of the overlap of the
worked range `[startMin, endMin]` and the normal window
`[winStart, winEnd]`, or 0 when the overlap is empty. -/
def overlapMinutes (startMin endMin winStart winEnd : ℤ) : ℤ :=
  if max startMin winStart < min endMin winEnd then
    min endMin winEnd - max startMin winStart
  else 0

/-- Normal-hours window used by `OvertimeReport.calculateHoursBreakdown`
for a non-Sunday day-of-week: weekday defaults 07:30-17:30, Saturday
from `saturday_hours_start`/`saturday_hours_end` (defaults 07:30-12:00),
Friday end overridden by `normal_hours_end_friday` when present. -/
def orNormalWindow (s : Settings) (dow : ℕ) : ℤ × ℤ :=
  if dow = 6 then
    (timeToMinutes (s.saturday_hours_start.getD (7, 30)),
     timeToMinutes (s.saturday_hours_end.getD (12, 0)))
  else if dow = 5 then
    (timeToMinutes (s.normal_hours_start.getD (7, 30)),
     match s.normal_hours_end_friday with
     | some t => timeToMinutes t
     | none => timeToMinutes (s.normal_hours_end.getD (17, 30)))
  else
    (timeToMinutes (s.normal_hours_start.getD (7, 30)),
     timeToMinutes (s.normal_hours_end.getD (17, 30)))

/-- Normal-hours window used by `PayrollReview.calculateHoursBreakdown`
(also `CalendarInstructions`): weekday defaults 07:30-17:30, Friday end
overridden by `normal_hours_end_friday` when present.  No Saturday or
Sunday special-casing exists in this version. -/
def prNormalWindow (s : Settings) (dow : ℕ) : ℤ × ℤ :=
  (timeToMinutes (s.normal_hours_start.getD (7, 30)),
   if dow = 5 then
     match s.normal_hours_end_friday with
     | some t => timeToMinutes t
     | none => timeToMinutes (s.normal_hours_end.getD (17, 30))
   else timeToMinutes (s.normal_hours_end.getD (17, 30)))

/-- Minute-level split `(normalMinutes, extraMinutes, totalMinutes)` of
`OvertimeReport.calculateHoursBreakdown`: on Sunday (`dow = 0`) the whole
total is overtime; otherwise the overlap with the day's normal window is
normal time and `extra = max 0 (total - normal)`. -/
def orMinuteSplit (s : Settings) (dow : ℕ) (startMin endMin : ℤ) : ℤ × ℤ × ℤ :=
  if dow = 0 then
    (0, totalMinutesOf startMin endMin, totalMinutesOf startMin endMin)
  else
    (overlapMinutes startMin endMin (orNormalWindow s dow).1 (orNormalWindow s dow).2,
     max 0 (totalMinutesOf startMin endMin -
       overlapMinutes startMin endMin (orNormalWindow s dow).1 (orNormalWindow s dow).2),
     totalMinutesOf startMin endMin)

/-- Minute-level split `(normalMinutes, extraMinutes, totalMinutes)` of
`PayrollReview.calculateHoursBreakdown`: the overlap with the
weekday/Friday window is normal time on every day of the week,
`extra = max 0 (total - normal)`. -/
def prMinuteSplit (s : Settings) (dow : ℕ) (startMin endMin : ℤ) : ℤ × ℤ × ℤ :=
  (overlapMinutes startMin endMin (prNormalWindow s dow).1 (prNormalWindow s dow).2,
   max 0 (totalMinutesOf startMin endMin -
     overlapMinutes startMin endMin (prNormalWindow s dow).1 (prNormalWindow s dow).2),
   totalMinutesOf startMin endMin)

/-- `OvertimeReport.calculateHoursBreakdown`: when `hora_inicio`,
`hora_fin`, `fecha_trabajada` or the settings are missing, the stored
`horas` count is all normal time; otherwise the minute split for the
date's day-of-week, converted to hours rounded to two decimals. -/
def calculateHoursBreakdownOR (settings : Option Settings) (r : Reporte) : HoursBreakdown :=
  match r.hora_inicio, r.hora_fin, r.fecha_trabajada, settings with
  | some hi, some hf, some fecha, some s =>
    let split := orMinuteSplit s (dayOfWeek fecha) (timeToMinutes hi) (timeToMinutes hf)
    ⟨round2 ((split.1 : ℚ) / 60), round2 ((split.2.1 : ℚ) / 60), round2 ((split.2.2 : ℚ) / 60)⟩
  | _, _, _, _ => ⟨r.horas, 0, r.horas⟩

/-- `PayrollReview.calculateHoursBreakdown` (same shape in
`CalendarInstructions`): identical to the `OvertimeReport` version except
that the minute split applies the weekday/Friday window to every
day-of-week (no Sunday/Saturday special-casing). -/
def calculateHoursBreakdownPR (settings : Option Settings) (r : Reporte) : HoursBreakdown :=
  match r.hora_inicio, r.hora_fin, r.fecha_trabajada, settings with
  | some hi, some hf, some fecha, some s =>
    let split := prMinuteSplit s (dayOfWeek fecha) (timeToMinutes hi) (timeToMinutes hf)
    ⟨round2 ((split.1 : ℚ) / 60), round2 ((split.2.1 : ℚ) / 60), round2 ((split.2.2 : ℚ) / 60)⟩
  | _, _, _, _ => ⟨r.horas, 0, r.horas⟩

/-- One week's accumulator of `PayrollReview.weeklyTotals` (the
per-client sub-map of the source is an identical parallel accumulation
at client granularity and is not re-modelled). -/
structure WeekTotals where
  totalHours : ℚ := 0
  approved : ℚ := 0
  pending : ℚ := 0
  rejected : ℚ := 0
  extraHours : ℚ := 0

/-- The per-report accumulation step of `PayrollReview.weeklyTotals`:
`extraHours` and `totalHours` grow for every report; approved (1) and
rejected (2) reports add their `horas` to the matching bucket,
partially-approved (3) reports add their normal portion to `approved`
and extra portion to `rejected`, everything else counts as pending. -/
def addReportToWeek (settings : Option Settings) (w : WeekTotals) (r : Reporte) : WeekTotals :=
  let bd := calculateHoursBreakdownPR settings r
  if r.aprobado = some 1 then
    ⟨w.totalHours + r.horas, w.approved + r.horas, w.pending, w.rejected, w.extraHours + bd.extra⟩
  else if r.aprobado = some 2 then
    ⟨w.totalHours + r.horas, w.approved, w.pending, w.rejected + r.horas, w.extraHours + bd.extra⟩
  else if r.aprobado = some 3 then
    ⟨w.totalHours + r.horas, w.approved + bd.normal, w.pending, w.rejected + bd.extra,
      w.extraHours + bd.extra⟩
  else
    ⟨w.totalHours + r.horas, w.approved, w.pending + r.horas, w.rejected, w.extraHours + bd.extra⟩

/-- The reports that land in the week bucket `wk` of
`PayrollReview.weeklyTotals`: those with a work date whose
Monday-to-Sunday week is `wk` (reports without a date are skipped). -/
def weekReportsSel (reports : List Reporte) (wk : ℕ) : List Reporte :=
  reports.filter fun r =>
    match r.fecha_trabajada with
    | some d => weekKey d == wk
    | none => false

/-- The totals of week bucket `wk` of `PayrollReview.weeklyTotals`. -/
def weeklyTotalsFor (settings : Option Settings) (reports : List Reporte) (wk : ℕ) : WeekTotals :=
  (weekReportsSel reports wk).foldl (addReportToWeek settings) {}

/-- The pending filter of the bulk handlers (`r.aprobado !== 1 &&
r.aprobado !== 2`): everything that is neither approved nor rejected. -/
def isPendingForBulk (r : Reporte) : Bool :=
  !(r.aprobado == some 1) && !(r.aprobado == some 2)

/-- Store effect of `PayrollReview.handleBulkApproval date newStatus`:
every report of the given work date passing the pending filter has its
`aprobado` set to `newStatus` and its approver recorded; all other
reports are unchanged. -/
def handleBulkApproval (reports : List Reporte) (date : ℕ) (newStatus coordinatorId : ℕ) :
    List Reporte :=
  reports.map fun r =>
    if (r.fecha_trabajada == some date) && isPendingForBulk r then
      { r with aprobado := some newStatus, aprobadopor := some coordinatorId }
    else r

/-- Store effect of `PayrollReview.handleBulkWeekApproval`: every report
whose work date falls in the Monday-to-Sunday week `wk` and that passes
the pending filter has its `aprobado` set to `newStatus`; all other
reports are unchanged. -/
def handleBulkWeekApproval (reports : List Reporte) (wk : ℕ) (newStatus coordinatorId : ℕ) :
    List Reporte :=
  reports.map fun r =>
    match r.fecha_trabajada with
    | some d =>
      if (weekKey d == wk) && isPendingForBulk r then
        { r with aprobado := some newStatus, aprobadopor := some coordinatorId }
      else r
    | none => r

/-- `hasExtras` of the `PayrollReview` reports view: the computed
breakdown reports strictly positive overtime. -/
def hasExtras (settings : Option Settings) (r : Reporte) : Bool :=
  decide (0 < (calculateHoursBreakdownPR settings r).extra)

/-- The approval transitions rendered for a report in the
`PayrollReview` reports view: none for statuses 1, 2 and 3 (a badge is
shown instead); otherwise "Aprobar Todo" (1), "Aprobar Sin Extras" (3)
only when `hasExtras`, and "Rechazar Todo" (2). -/
def availableApprovalActions (settings : Option Settings) (r : Reporte) : List ℕ :=
  if r.aprobado = some 1 then []
  else if r.aprobado = some 2 then []
  else if r.aprobado = some 3 then []
  else if hasExtras settings r then [1, 3, 2]
  else [1, 2]

/-- A stored hours record of the entry calendars (`HoursRecord`),
restricted to the fields the validators read.  `fecha` is the day
index of the record's work date. -/
structure HoursRecord where
  fecha : ℕ
  horas : ℚ
  clienteId : String := ""
  areaCliente : Option String := none

/-- A billing client with its set of work areas. -/
structure Cliente where
  id : String
  nombre : String
  elementoPEP : String
  areas : List String

/-- `DAILY_LIMITS_DEFAULT` of `CalendarHoursEntry`: Monday-Thursday 9h,
Friday 8h, Saturday and Sunday closed (0h). -/
def DAILY_LIMITS_DEFAULT : DailyLimits :=
  ⟨9, 9, 9, 9, 8, 0, 0⟩

/-- Lookup of the per-day ceiling by JavaScript day-of-week
(0 = Sunday … 6 = Saturday). -/
def dailyLimitFor (dl : DailyLimits) (dow : ℕ) : ℚ :=
  if dow = 1 then dl.monday
  else if dow = 2 then dl.tuesday
  else if dow = 3 then dl.wednesday
  else if dow = 4 then dl.thursday
  else if dow = 5 then dl.friday
  else if dow = 6 then dl.saturday
  else dl.sunday

/-- `activeDailyLimits` of `CalendarHoursEntry`: the settings'
`daily_limits` when present, else the documented defaults. -/
def activeDailyLimits (settings : Option Settings) : DailyLimits :=
  match settings with
  | some s => s.daily_limits.getD DAILY_LIMITS_DEFAULT
  | none => DAILY_LIMITS_DEFAULT

/-- `activeWeeklyLimit` (`settings?.weekly_limit || 44`): the settings'
weekly limit when present and non-zero (JavaScript `||` treats 0 as
falsy), else the 44h default. -/
def activeWeeklyLimit (settings : Option Settings) : ℚ :=
  match settings with
  | some s =>
    match s.weekly_limit with
    | some q => if q = 0 then 44 else q
    | none => 44
  | none => 44

/-- `getDailyHours`: sum of the hours of the existing records on the
given calendar day. -/
def getDailyHours (records : List HoursRecord) (date : ℕ) : ℚ :=
  ((records.filter fun rec => rec.fecha == date).map HoursRecord.horas).sum

/-- `getWeeklyHours`: sum of the hours of the existing records in the
Monday-to-Sunday week containing the given day. -/
def getWeeklyHours (records : List HoursRecord) (date : ℕ) : ℚ :=
  ((records.filter fun rec => weekKey rec.fecha == weekKey date).map HoursRecord.horas).sum

/-- The prior hours subtracted from the running totals when editing
(`recordToEdit ? recordToEdit.horas : 0`). -/
def editingHours (recordToEdit : Option HoursRecord) : ℚ :=
  match recordToEdit with
  | some rec => rec.horas
  | none => 0

/-- Outcome of `CalendarHoursEntry.handleSubmit` (hours-count form,
with daily/weekly ceiling enforcement).  Each failure constructor
carries the data its user message is built from; `dailyLimitExceeded`
carries the adjusted already-recorded hours, the day's ceiling and the
remaining headroom `disponibles` (the source picks one of two message
texts by the sign of `disponibles`). -/
inductive CalValidation where
  | accepted (clienteId : String) (horas : ℚ) (fecha : ℕ) (area : String)
  | emptyCliente
  | emptyArea
  | invalidHoras
  | clienteNotFound
  | dayClosed (dow : ℕ)
  | dailyLimitExceeded (registradas maxPermitido disponibles : ℚ)
  | weeklyLimitExceeded (horas remaining limit : ℚ)

/-- `CalendarHoursEntry.handleSubmit` (hours-count form): structural
checks, then the day-of-week ceiling (a 0 ceiling closes the day), then
the weekly ceiling; when editing, the edited record's prior hours are
subtracted from both running totals. -/
def validateCalendarEntry (clientes : List Cliente) (existingRecords : List HoursRecord)
    (recordToEdit : Option HoursRecord) (settings : Option Settings)
    (selectedCliente areaCliente : String) (horas : ℚ) (selectedDate : ℕ) : CalValidation :=
  if selectedCliente = "" then .emptyCliente
  else if jsTrim areaCliente = "" then .emptyArea
  else if horas ≤ 0 then .invalidHoras
  else
    match clientes.find? fun c => c.elementoPEP == selectedCliente with
    | none => .clienteNotFound
    | some _ =>
      let maxPermitido := dailyLimitFor (activeDailyLimits settings) (dayOfWeek selectedDate)
      let horasExistentesAjustadas :=
        getDailyHours existingRecords selectedDate - editingHours recordToEdit
      if maxPermitido = 0 then .dayClosed (dayOfWeek selectedDate)
      else if horasExistentesAjustadas + horas > maxPermitido then
        .dailyLimitExceeded horasExistentesAjustadas maxPermitido
          (maxPermitido - horasExistentesAjustadas)
      else
        let remaining :=
          activeWeeklyLimit settings -
            (getWeeklyHours existingRecords selectedDate - editingHours recordToEdit)
        if horas > remaining then
          .weeklyLimitExceeded horas remaining (activeWeeklyLimit settings)
        else .accepted selectedCliente horas selectedDate (jsTrim areaCliente)

/-- Outcome of the time-range `CalendarHoursEntry.handleSubmit` (the
version with time capture, activity kind and evidence; daily/weekly
ceilings are not enforced there). -/
inductive TRValidation where
  | accepted (clienteId : String) (horas : ℚ) (fecha : ℕ) (area : String)
      (ubicacion : Option (ℚ × ℚ)) (firma : Option String)
  | emptyCliente
  | emptyArea
  | missingTimes
  | clienteNotFound
  | invalidTimeRange
  | emptyDescripcion
  | areaMismatch
  | locationRequired
  | firmaRequired

/-- The time-range `CalendarHoursEntry.handleSubmit`: structural checks,
hours derived from the time range must be positive, description
required, the area must belong to the client's areas (the dynamically
loaded ones when non-empty), and for activity type "En Cliente" a
location is required unless the user declined sharing it
(`ubicacionRechazada`) and a signature is always required. -/
def validateTimeRangeEntry (clientes : List Cliente) (dynamicAreas : List String)
    (selectedCliente areaCliente : String) (horaInicio horaFin : Option (ℕ × ℕ))
    (selectedDate : ℕ) (descripcion tipoActividad : String)
    (ubicacion : Option (ℚ × ℚ)) (ubicacionRechazada : Bool) (firma : Option String) :
    TRValidation :=
  if selectedCliente = "" then .emptyCliente
  else if jsTrim areaCliente = "" then .emptyArea
  else
    match horaInicio, horaFin with
    | some hi, some hf =>
      match clientes.find? fun c => c.elementoPEP == selectedCliente with
      | none => .clienteNotFound
      | some companyData =>
        let horasCalculadas : ℚ := ((timeToMinutes hf - timeToMinutes hi : ℤ) : ℚ) / 60
        if horasCalculadas ≤ 0 then .invalidTimeRange
        else if jsTrim descripcion = "" then .emptyDescripcion
        else
          let clienteAreas := if dynamicAreas ≠ [] then dynamicAreas else companyData.areas
          if !(clienteAreas.contains (jsTrim areaCliente)) then .areaMismatch
          else if tipoActividad = "En Cliente" then
            if ubicacion = none ∧ ubicacionRechazada = false then .locationRequired
            else if firma = none then .firmaRequired
            else .accepted selectedCliente horasCalculadas selectedDate (jsTrim areaCliente)
              ubicacion firma
          else .accepted selectedCliente horasCalculadas selectedDate (jsTrim areaCliente)
            ubicacion firma
    | _, _ => .missingTimes

/-- A sample client used to instantiate the validator theorems. -/
def cliACME : Cliente := ⟨"1", "ACME", "PEP1", ["A"]⟩

/-- Reduction of `calculateHoursBreakdownOR` on the time-range path. -/
theorem calculateHoursBreakdownOR_timeRange (s : Settings) (r : Reporte) (hi hf : ℕ × ℕ)
    (fecha : ℕ) (h1 : r.hora_inicio = some hi) (h2 : r.hora_fin = some hf)
    (h3 : r.fecha_trabajada = some fecha) :
    calculateHoursBreakdownOR (some s) r =
      ⟨round2 (((orMinuteSplit s (dayOfWeek fecha) (timeToMinutes hi)
          (timeToMinutes hf)).1 : ℚ) / 60),
       round2 (((orMinuteSplit s (dayOfWeek fecha) (timeToMinutes hi)
          (timeToMinutes hf)).2.1 : ℚ) / 60),
       round2 (((orMinuteSplit s (dayOfWeek fecha) (timeToMinutes hi)
          (timeToMinutes hf)).2.2 : ℚ) / 60)⟩ := by
  rcases r with ⟨id, doc, horas, hi0, hf0, ft0, ap, app⟩
  simp only at h1 h2 h3
  subst h1 h2 h3
  rfl

/-- Reduction of `calculateHoursBreakdownPR` on the time-range path. -/
theorem calculateHoursBreakdownPR_timeRange (s : Settings) (r : Reporte) (hi hf : ℕ × ℕ)
    (fecha : ℕ) (h1 : r.hora_inicio = some hi) (h2 : r.hora_fin = some hf)
    (h3 : r.fecha_trabajada = some fecha) :
    calculateHoursBreakdownPR (some s) r =
      ⟨round2 (((prMinuteSplit s (dayOfWeek fecha) (timeToMinutes hi)
          (timeToMinutes hf)).1 : ℚ) / 60),
       round2 (((prMinuteSplit s (dayOfWeek fecha) (timeToMinutes hi)
          (timeToMinutes hf)).2.1 : ℚ) / 60),
       round2 (((prMinuteSplit s (dayOfWeek fecha) (timeToMinutes hi)
          (timeToMinutes hf)).2.2 : ℚ) / 60)⟩ := by
  rcases r with ⟨id, doc, horas, hi0, hf0, ft0, ap, app⟩
  simp only at h1 h2 h3
  subst h1 h2 h3
  rfl

/-- On Sunday (`dow = 0`) the `OvertimeReport` minute split makes the
whole total overtime. -/
theorem orMinuteSplit_sunday (s : Settings) (a b : ℤ) :
    orMinuteSplit s 0 a b = (0, totalMinutesOf a b, totalMinutesOf a b) := by
  simp [orMinuteSplit]

theorem overlapMinutes_nonneg (a b ws we : ℤ) : 0 ≤ overlapMinutes a b ws we := by
  unfold overlapMinutes
  split <;> omega

theorem totalMinutesOf_nonneg (a b : ℤ) (h2 : a < 1440) (h3 : 0 ≤ b) :
    0 ≤ totalMinutesOf a b := by
  unfold totalMinutesOf
  split <;> omega

theorem overlapMinutes_le_total (a b ws we : ℤ) (h2 : a < 1440) (h3 : 0 ≤ b) :
    overlapMinutes a b ws we ≤ totalMinutesOf a b := by
  unfold overlapMinutes totalMinutesOf
  split <;> split <;> omega

theorem split_parts (n t : ℤ) (h0 : 0 ≤ n) (h1 : n ≤ t) :
    n + max 0 (t - n) = t ∧ 0 ≤ n ∧ 0 ≤ max 0 (t - n) := by omega

/-- Claim C3: for every (interval, date, schedule) triple given a time
range, both splitter versions satisfy
`normalMinutes + overtimeMinutes = totalMinutes` with both parts
non-negative. -/
theorem C3_split_conservation (s : Settings) (dow : ℕ) (startMin endMin : ℤ)
    (h1 : 0 ≤ startMin) (h2 : startMin < 1440) (h3 : 0 ≤ endMin) (h4 : endMin < 1440) :
    ((orMinuteSplit s dow startMin endMin).1 + (orMinuteSplit s dow startMin endMin).2.1 =
        (orMinuteSplit s dow startMin endMin).2.2 ∧
      0 ≤ (orMinuteSplit s dow startMin endMin).1 ∧
      0 ≤ (orMinuteSplit s dow startMin endMin).2.1) ∧
    ((prMinuteSplit s dow startMin endMin).1 + (prMinuteSplit s dow startMin endMin).2.1 =
        (prMinuteSplit s dow startMin endMin).2.2 ∧
      0 ≤ (prMinuteSplit s dow startMin endMin).1 ∧
      0 ≤ (prMinuteSplit s dow startMin endMin).2.1) := by
  constructor
  · by_cases hd : dow = 0
    · simp only [orMinuteSplit, if_pos hd]
      have ht := totalMinutesOf_nonneg startMin endMin h2 h3
      exact ⟨by omega, le_refl 0, ht⟩
    · simp only [orMinuteSplit, if_neg hd]
      exact split_parts _ _
        (overlapMinutes_nonneg startMin endMin _ _)
        (overlapMinutes_le_total startMin endMin _ _ h2 h3)
  · exact split_parts _ _
      (overlapMinutes_nonneg startMin endMin _ _)
      (overlapMinutes_le_total startMin endMin _ _ h2 h3)

theorem C3_split_conservation_witness :
    ((orMinuteSplit {} 2 450 1080).1 + (orMinuteSplit {} 2 450 1080).2.1 =
        (orMinuteSplit {} 2 450 1080).2.2 ∧
      0 ≤ (orMinuteSplit {} 2 450 1080).1 ∧
      0 ≤ (orMinuteSplit {} 2 450 1080).2.1) ∧
    ((prMinuteSplit {} 2 450 1080).1 + (prMinuteSplit {} 2 450 1080).2.1 =
        (prMinuteSplit {} 2 450 1080).2.2 ∧
      0 ≤ (prMinuteSplit {} 2 450 1080).1 ∧
      0 ≤ (prMinuteSplit {} 2 450 1080).2.1) :=
  C3_split_conservation {} 2 450 1080 (by norm_num) (by norm_num) (by norm_num) (by norm_num)

/-- Claim C10: an entry without a start time, an end time or a work
date, or evaluated with no schedule settings, takes the legacy path in
every breakdown version: normal = stored hours, extra = 0, total =
stored hours. -/
theorem C10_legacy_path (settings : Option Settings) (r : Reporte)
    (h : r.hora_inicio = none ∨ r.hora_fin = none ∨ r.fecha_trabajada = none ∨
      settings = none) :
    calculateHoursBreakdownOR settings r = ⟨r.horas, 0, r.horas⟩ ∧
    calculateHoursBreakdownPR settings r = ⟨r.horas, 0, r.horas⟩ := by
  rcases r with ⟨id, doc, horas, hi, hf, ft, ap, app⟩
  cases hi <;> cases hf <;> cases ft <;> cases settings <;>
    first
      | exact ⟨rfl, rfl⟩
      | (rcases h with h | h | h | h <;> simp at h)

theorem C10_legacy_path_witness :
    calculateHoursBreakdownOR (some {})
        (⟨2, 10, 5, none, none, none, none, none⟩ : Reporte) = ⟨5, 0, 5⟩ ∧
    calculateHoursBreakdownPR (some {})
        (⟨2, 10, 5, none, none, none, none, none⟩ : Reporte) = ⟨5, 0, 5⟩ :=
  C10_legacy_path (some {}) ⟨2, 10, 5, none, none, none, none, none⟩ (Or.inl rfl)

/-- Claim C2, counterexample: the `PayrollReview` breakdown (one of the
two splitter versions the claim quantifies over) applies the weekday
window on Sundays.  Day 7 is a Sunday, yet an 08:00-10:00 entry worked
on it is classified as 2 normal hours, not 0. -/
theorem C2_counterexample :
    dayOfWeek 7 = 0 ∧
    (calculateHoursBreakdownPR (some {})
        (⟨1, 10, 2, some (8, 0), some (10, 0), some 7, none, none⟩ : Reporte)).normal = 2 := by
  refine ⟨rfl, ?_⟩
  rw [calculateHoursBreakdownPR_timeRange {} _ (8, 0) (10, 0) 7 rfl rfl rfl]
  rw [show prMinuteSplit {} (dayOfWeek 7) (timeToMinutes (8, 0)) (timeToMinutes (10, 0)) =
    (120, 0, 120) from by decide]
  norm_num [round2, round_eq]

/-- Claim C2, amended: in the `OvertimeReport` breakdown (the splitter
version with the Sunday rule), a Sunday work date yields zero normal
minutes and the whole total as overtime, for every interval and
schedule configuration. -/
theorem C2_sunday_all_overtime (s : Settings) (r : Reporte) (hi hf : ℕ × ℕ) (fecha : ℕ)
    (h1 : r.hora_inicio = some hi) (h2 : r.hora_fin = some hf)
    (h3 : r.fecha_trabajada = some fecha) (hsun : dayOfWeek fecha = 0) :
    (calculateHoursBreakdownOR (some s) r).normal = 0 ∧
    (calculateHoursBreakdownOR (some s) r).extra =
      (calculateHoursBreakdownOR (some s) r).total := by
  rw [calculateHoursBreakdownOR_timeRange s r hi hf fecha h1 h2 h3, hsun,
    orMinuteSplit_sunday]
  exact ⟨by norm_num [round2], rfl⟩

theorem C2_sunday_all_overtime_witness :
    (calculateHoursBreakdownOR (some {})
        (⟨1, 10, 2, some (8, 0), some (10, 0), some 7, none, none⟩ : Reporte)).normal = 0 ∧
    (calculateHoursBreakdownOR (some {})
        (⟨1, 10, 2, some (8, 0), some (10, 0), some 7, none, none⟩ : Reporte)).extra =
      (calculateHoursBreakdownOR (some {})
        (⟨1, 10, 2, some (8, 0), some (10, 0), some 7, none, none⟩ : Reporte)).total :=
  C2_sunday_all_overtime {} ⟨1, 10, 2, some (8, 0), some (10, 0), some 7, none, none⟩
    (8, 0) (10, 0) 7 rfl rfl rfl rfl

/-- Claim C1, code-bug exhibit: the bulk handlers' pending filter only
excludes statuses 1 and 2, so a partially-approved entry
(`aprobado = 3`, a terminal state per the state machine and per the
badge-only rendering of the same file) inside the scope is overwritten
by both the day-scope and the week-scope bulk operation instead of
being left untouched.  Day 3 lies in week 1. -/
theorem C1_bulk_overwrites_partial :
    handleBulkApproval [⟨1, 10, 8, none, none, some 3, some 3, none⟩] 3 1 99 =
      [⟨1, 10, 8, none, none, some 3, some 1, some 99⟩] ∧
    handleBulkWeekApproval [⟨1, 10, 8, none, none, some 3, some 3, none⟩] 1 2 99 =
      [⟨1, 10, 8, none, none, some 3, some 2, some 99⟩] :=
  ⟨rfl, rfl⟩

/-- Claim C6: the partial-approval transition (status 3) is offered for
a report exactly when the report is still pending (not in status 1, 2
or 3) and its computed overtime is strictly positive; and the bulk
handlers invoked with a status other than 3 never produce a
partially-approved entry that was not already one. -/
theorem C6_partial_approval_guard :
    (∀ (settings : Option Settings) (r : Reporte),
        3 ∈ availableApprovalActions settings r ↔
          (r.aprobado ≠ some 1 ∧ r.aprobado ≠ some 2 ∧ r.aprobado ≠ some 3 ∧
            0 < (calculateHoursBreakdownPR settings r).extra)) ∧
    (∀ (reports : List Reporte) (date newStatus coordinatorId : ℕ),
        newStatus ≠ 3 →
        ∀ r' ∈ handleBulkApproval reports date newStatus coordinatorId,
          r'.aprobado = some 3 → ∃ r ∈ reports, r.aprobado = some 3) := by
  constructor
  · intro settings r
    unfold availableApprovalActions
    split_ifs with h1 h2 h3 h4
    · simp [h1]
    · simp [h2]
    · simp [h3]
    · simp only [hasExtras, decide_eq_true_eq] at h4
      simp [h1, h2, h3, h4]
    · simp only [hasExtras, decide_eq_true_eq] at h4
      simp [h1, h2, h3, h4]
  · intro reports date newStatus coordinatorId hst r' hmem hap
    unfold handleBulkApproval at hmem
    rw [List.mem_map] at hmem
    obtain ⟨r, hr, hEq⟩ := hmem
    by_cases hc : (r.fecha_trabajada == some date) && isPendingForBulk r
    · rw [if_pos hc] at hEq
      subst hEq
      simp only [Option.some.injEq] at hap
      exact absurd hap hst
    · rw [if_neg hc] at hEq
      subst hEq
      exact ⟨r, hr, hap⟩

theorem C6_partial_approval_guard_witness :
    ∃ r ∈ [(⟨1, 10, 8, none, none, none, some 3, none⟩ : Reporte)], r.aprobado = some 3 :=
  C6_partial_approval_guard.2 [⟨1, 10, 8, none, none, none, some 3, none⟩] 3 1 99
    (by decide) ⟨1, 10, 8, none, none, none, some 3, none⟩ (by simp [handleBulkApproval]) rfl

theorem addReportToWeek_totalHours (settings : Option Settings) (w : WeekTotals) (r : Reporte) :
    (addReportToWeek settings w r).totalHours = w.totalHours + r.horas := by
  simp only [addReportToWeek]
  split_ifs <;> rfl

theorem foldl_week_totalHours (settings : Option Settings) (l : List Reporte) (w : WeekTotals) :
    (l.foldl (addReportToWeek settings) w).totalHours =
      w.totalHours + (l.map Reporte.horas).sum := by
  induction l generalizing w with
  | nil => simp
  | cons r l ih =>
    rw [List.foldl_cons, ih, addReportToWeek_totalHours, List.map_cons, List.sum_cons]
    ring

theorem foldl_week_partition (settings : Option Settings) (l : List Reporte) (w : WeekTotals)
    (h : ∀ r ∈ l, r.aprobado ≠ some 3) :
    (l.foldl (addReportToWeek settings) w).approved +
      (l.foldl (addReportToWeek settings) w).rejected +
      (l.foldl (addReportToWeek settings) w).pending =
    w.approved + w.rejected + w.pending + (l.map Reporte.horas).sum := by
  induction l generalizing w with
  | nil => simp
  | cons r l ih =>
    have hr3 : r.aprobado ≠ some 3 := h r (List.mem_cons_self _ _)
    have hstep : (addReportToWeek settings w r).approved +
        (addReportToWeek settings w r).rejected + (addReportToWeek settings w r).pending =
        w.approved + w.rejected + w.pending + r.horas := by
      by_cases h1 : r.aprobado = some 1
      · simp only [addReportToWeek, if_pos h1]
        ring
      · by_cases h2 : r.aprobado = some 2
        · simp only [addReportToWeek, if_neg h1, if_pos h2]
          ring
        · simp only [addReportToWeek, if_neg h1, if_neg h2, if_neg hr3]
          ring
    rw [List.foldl_cons, ih _ (fun x hx => h x (List.mem_cons_of_mem _ hx)), hstep,
      List.map_cons, List.sum_cons]
    ring

/-- Claim C7: a week bucket's `totalHours` is the sum of the hours of
the reports that land in it; when no report of the bucket is
partially-approved, `approved + rejected + pending` partitions the
total exactly; and a partially-approved report contributes its normal
portion to `approved`, its overtime portion to `rejected` and nothing
to `pending`. -/
theorem C7_aggregator_partition (settings : Option Settings) (reports : List Reporte) (wk : ℕ) :
    (weeklyTotalsFor settings reports wk).totalHours =
        ((weekReportsSel reports wk).map Reporte.horas).sum ∧
    ((∀ r ∈ weekReportsSel reports wk, r.aprobado ≠ some 3) →
      (weeklyTotalsFor settings reports wk).approved +
          (weeklyTotalsFor settings reports wk).rejected +
          (weeklyTotalsFor settings reports wk).pending =
        (weeklyTotalsFor settings reports wk).totalHours) ∧
    (∀ (w : WeekTotals) (r : Reporte), r.aprobado = some 3 →
      (addReportToWeek settings w r).approved =
          w.approved + (calculateHoursBreakdownPR settings r).normal ∧
      (addReportToWeek settings w r).rejected =
          w.rejected + (calculateHoursBreakdownPR settings r).extra ∧
      (addReportToWeek settings w r).pending = w.pending ∧
      (addReportToWeek settings w r).totalHours = w.totalHours + r.horas) := by
  refine ⟨?_, ?_, ?_⟩
  · unfold weeklyTotalsFor
    rw [foldl_week_totalHours]
    simp
  · intro h
    unfold weeklyTotalsFor
    rw [foldl_week_partition _ _ _ h, foldl_week_totalHours]
    simp
  · intro w r h3
    have hne1 : r.aprobado ≠ some 1 := by rw [h3]; simp
    have hne2 : r.aprobado ≠ some 2 := by rw [h3]; simp
    simp only [addReportToWeek]
    rw [if_neg hne1, if_neg hne2, if_pos h3]
    exact ⟨rfl, rfl, rfl, rfl⟩

theorem C7_aggregator_partition_witness :
    (weeklyTotalsFor (some {}) [⟨1, 10, 4, none, none, some 3, some 1, none⟩,
        ⟨2, 10, 2, none, none, some 5, none, none⟩] 1).approved +
      (weeklyTotalsFor (some {}) [⟨1, 10, 4, none, none, some 3, some 1, none⟩,
        ⟨2, 10, 2, none, none, some 5, none, none⟩] 1).rejected +
      (weeklyTotalsFor (some {}) [⟨1, 10, 4, none, none, some 3, some 1, none⟩,
        ⟨2, 10, 2, none, none, some 5, none, none⟩] 1).pending =
    (weeklyTotalsFor (some {}) [⟨1, 10, 4, none, none, some 3, some 1, none⟩,
        ⟨2, 10, 2, none, none, some 5, none, none⟩] 1).totalHours :=
  (C7_aggregator_partition (some {}) [⟨1, 10, 4, none, none, some 3, some 1, none⟩,
    ⟨2, 10, 2, none, none, some 5, none, none⟩] 1).2.1 (by decide)

/-- Reduction of `validateCalendarEntry` once the structural checks
(non-empty client and area, positive hours, client found) pass. -/
theorem validateCalendarEntry_checks (clientes : List Cliente) (records : List HoursRecord)
    (recordToEdit : Option HoursRecord) (settings : Option Settings)
    (cli area : String) (horas : ℚ) (d : ℕ) (c : Cliente)
    (hcli : ¬cli = "") (harea : ¬jsTrim area = "") (hh : 0 < horas)
    (hfind : (clientes.find? fun cl => cl.elementoPEP == cli) = some c) :
    validateCalendarEntry clientes records recordToEdit settings cli area horas d =
      (if dailyLimitFor (activeDailyLimits settings) (dayOfWeek d) = 0 then
        .dayClosed (dayOfWeek d)
      else if getDailyHours records d - editingHours recordToEdit + horas >
          dailyLimitFor (activeDailyLimits settings) (dayOfWeek d) then
        .dailyLimitExceeded (getDailyHours records d - editingHours recordToEdit)
          (dailyLimitFor (activeDailyLimits settings) (dayOfWeek d))
          (dailyLimitFor (activeDailyLimits settings) (dayOfWeek d) -
            (getDailyHours records d - editingHours recordToEdit))
      else if horas > activeWeeklyLimit settings -
          (getWeeklyHours records d - editingHours recordToEdit) then
        .weeklyLimitExceeded horas
          (activeWeeklyLimit settings - (getWeeklyHours records d - editingHours recordToEdit))
          (activeWeeklyLimit settings)
      else .accepted cli horas d (jsTrim area)) := by
  unfold validateCalendarEntry
  rw [if_neg hcli, if_neg harea, if_neg (not_le.mpr hh), hfind]

/-- Reduction of the time-range validator once the structural checks
(non-empty client and area, both times present, client found) pass. -/
theorem validateTimeRangeEntry_checks (clientes : List Cliente) (dynamicAreas : List String)
    (cli area : String) (hi hf : ℕ × ℕ) (d : ℕ) (desc tipo : String)
    (ubic : Option (ℚ × ℚ)) (rech : Bool) (firma : Option String) (c : Cliente)
    (hcli : ¬cli = "") (harea : ¬jsTrim area = "")
    (hfind : (clientes.find? fun cl => cl.elementoPEP == cli) = some c) :
    validateTimeRangeEntry clientes dynamicAreas cli area (some hi) (some hf) d desc tipo
        ubic rech firma =
      (if ((timeToMinutes hf - timeToMinutes hi : ℤ) : ℚ) / 60 ≤ 0 then .invalidTimeRange
      else if jsTrim desc = "" then .emptyDescripcion
      else if !((if dynamicAreas ≠ [] then dynamicAreas else c.areas).contains (jsTrim area))
          then .areaMismatch
      else if tipo = "En Cliente" then
        if ubic = none ∧ rech = false then .locationRequired
        else if firma = none then .firmaRequired
        else .accepted cli (((timeToMinutes hf - timeToMinutes hi : ℤ) : ℚ) / 60) d
          (jsTrim area) ubic firma
      else .accepted cli (((timeToMinutes hf - timeToMinutes hi : ℤ) : ℚ) / 60) d
        (jsTrim area) ubic firma) := by
  unfold validateTimeRangeEntry
  rw [if_neg hcli, if_neg harea, hfind]

/-- Claim C4, counterexample: the time-range entry form performs no
weekly-ceiling check at all.  With the employee already at the 44h
weekly limit (a 44h record on day 3, same Monday-Sunday week as day 5),
a 4h candidate on day 5 is nonetheless accepted. -/
theorem C4_counterexample :
    getWeeklyHours [⟨3, 44, "PEP1", none⟩] 5 = 44 ∧
    activeWeeklyLimit none = 44 ∧
    validateTimeRangeEntry [cliACME] [] "PEP1" "A" (some (8, 0)) (some (12, 0)) 5 "work"
        "En Oficina" none false none =
      .accepted "PEP1" 4 5 "A" none none := by
  refine ⟨?_, rfl, ?_⟩
  · norm_num [getWeeklyHours, weekKey]
  · rw [validateTimeRangeEntry_checks [cliACME] [] "PEP1" "A" (8, 0) (12, 0) 5 "work"
      "En Oficina" none false none cliACME (by decide) (by decide) rfl]
    rw [if_neg (by norm_num [timeToMinutes] :
      ¬((timeToMinutes (12, 0) - timeToMinutes (8, 0) : ℤ) : ℚ) / 60 ≤ 0)]
    rw [if_neg (by decide : ¬jsTrim "work" = "")]
    rw [if_neg (by decide :
      ¬(!((if ([] : List String) ≠ [] then ([] : List String) else cliACME.areas).contains
        (jsTrim "A"))) = true)]
    rw [if_neg (by decide : ¬("En Oficina" = "En Cliente"))]
    simp only [TRValidation.accepted.injEq]
    refine ⟨trivial, ?_, trivial, by decide, trivial, trivial⟩
    norm_num [timeToMinutes]

/-- Claim C4, amended: the hours-count entry form enforces the weekly
ceiling: once the structural and daily checks pass, the candidate is
accepted exactly when the Monday-Sunday week's recorded hours (minus
the edited entry's prior hours) plus the candidate's hours stay within
the weekly limit, and the rejection carries the remaining weekly
headroom.  The time-range form performs no weekly check. -/
theorem C4_weekly_ceiling (clientes : List Cliente) (records : List HoursRecord)
    (recordToEdit : Option HoursRecord) (settings : Option Settings)
    (cli area : String) (horas : ℚ) (d : ℕ) (c : Cliente)
    (hcli : ¬cli = "") (harea : ¬jsTrim area = "") (hh : 0 < horas)
    (hfind : (clientes.find? fun cl => cl.elementoPEP == cli) = some c)
    (hmax : dailyLimitFor (activeDailyLimits settings) (dayOfWeek d) ≠ 0)
    (hdaily : getDailyHours records d - editingHours recordToEdit + horas ≤
      dailyLimitFor (activeDailyLimits settings) (dayOfWeek d)) :
    (validateCalendarEntry clientes records recordToEdit settings cli area horas d =
        .accepted cli horas d (jsTrim area) ↔
      getWeeklyHours records d - editingHours recordToEdit + horas ≤
        activeWeeklyLimit settings) ∧
    (activeWeeklyLimit settings <
        getWeeklyHours records d - editingHours recordToEdit + horas →
      validateCalendarEntry clientes records recordToEdit settings cli area horas d =
        .weeklyLimitExceeded horas
          (activeWeeklyLimit settings - (getWeeklyHours records d - editingHours recordToEdit))
          (activeWeeklyLimit settings)) := by
  rw [validateCalendarEntry_checks clientes records recordToEdit settings cli area horas d c
    hcli harea hh hfind, if_neg hmax, if_neg (not_lt.mpr hdaily)]
  constructor
  · by_cases hw : horas > activeWeeklyLimit settings -
      (getWeeklyHours records d - editingHours recordToEdit)
    · rw [if_pos hw]
      constructor
      · intro habs
        exact absurd habs (by simp)
      · intro hle
        exact absurd hw (not_lt.mpr (by linarith))
    · rw [if_neg hw]
      exact iff_of_true rfl (by push_neg at hw; linarith)
  · intro hexc
    rw [if_pos (by linarith)]

theorem C4_weekly_ceiling_witness :
    validateCalendarEntry [cliACME] [] none none "PEP1" "A" 3 2 =
      .accepted "PEP1" 3 2 (jsTrim "A") :=
  (C4_weekly_ceiling [cliACME] [] none none "PEP1" "A" 3 2 cliACME (by decide) (by decide)
      (by norm_num) rfl
      (by norm_num [dailyLimitFor, activeDailyLimits, DAILY_LIMITS_DEFAULT, dayOfWeek])
      (by norm_num [getDailyHours, editingHours, dailyLimitFor, activeDailyLimits,
        DAILY_LIMITS_DEFAULT, dayOfWeek])).1.mpr
    (by norm_num [getWeeklyHours, editingHours, activeWeeklyLimit])

/-- Claim C5: once the structural checks pass, a day whose configured
ceiling is 0 fails with the day-closed violation for every candidate;
and for an open day the daily-limit violation, carrying the remaining
headroom, occurs exactly when the day's already-recorded hours
(excluding the edited entry) plus the candidate's hours exceed the
day-of-week's ceiling. -/
theorem C5_daily_ceiling (clientes : List Cliente) (records : List HoursRecord)
    (recordToEdit : Option HoursRecord) (settings : Option Settings)
    (cli area : String) (horas : ℚ) (d : ℕ) (c : Cliente)
    (hcli : ¬cli = "") (harea : ¬jsTrim area = "") (hh : 0 < horas)
    (hfind : (clientes.find? fun cl => cl.elementoPEP == cli) = some c) :
    (dailyLimitFor (activeDailyLimits settings) (dayOfWeek d) = 0 →
      validateCalendarEntry clientes records recordToEdit settings cli area horas d =
        .dayClosed (dayOfWeek d)) ∧
    (dailyLimitFor (activeDailyLimits settings) (dayOfWeek d) ≠ 0 →
      (validateCalendarEntry clientes records recordToEdit settings cli area horas d =
          .dailyLimitExceeded (getDailyHours records d - editingHours recordToEdit)
            (dailyLimitFor (activeDailyLimits settings) (dayOfWeek d))
            (dailyLimitFor (activeDailyLimits settings) (dayOfWeek d) -
              (getDailyHours records d - editingHours recordToEdit)) ↔
        dailyLimitFor (activeDailyLimits settings) (dayOfWeek d) <
          getDailyHours records d - editingHours recordToEdit + horas)) := by
  rw [validateCalendarEntry_checks clientes records recordToEdit settings cli area horas d c
    hcli harea hh hfind]
  constructor
  · intro h0
    rw [if_pos h0]
  · intro h0
    rw [if_neg h0]
    by_cases hex : getDailyHours records d - editingHours recordToEdit + horas >
      dailyLimitFor (activeDailyLimits settings) (dayOfWeek d)
    · rw [if_pos hex]
      exact iff_of_true rfl hex
    · rw [if_neg hex]
      push_neg at hex
      refine iff_of_false ?_ (not_lt.mpr hex)
      by_cases hw : horas > activeWeeklyLimit settings -
        (getWeeklyHours records d - editingHours recordToEdit)
      · rw [if_pos hw]
        simp
      · rw [if_neg hw]
        simp

theorem C5_daily_ceiling_witness :
    validateCalendarEntry [cliACME] [] none none "PEP1" "A" 3 6 = .dayClosed 6 :=
  (C5_daily_ceiling [cliACME] [] none none "PEP1" "A" 3 6 cliACME (by decide) (by decide)
      (by norm_num) rfl).1
    (by norm_num [dailyLimitFor, activeDailyLimits, DAILY_LIMITS_DEFAULT, dayOfWeek])

/-- Claim C8: re-validating an edit that keeps the entry's hour count
unchanged never trips the daily or weekly ceiling the original entry
already passed: since the validator subtracts the edited entry's prior
hours from both running totals, a day total within the day's ceiling
and a week total within the weekly limit make the re-validation
accept. -/
theorem C8_edit_idempotent (clientes : List Cliente) (records : List HoursRecord)
    (settings : Option Settings) (cli area : String) (d : ℕ) (c : Cliente) (rec : HoursRecord)
    (hcli : ¬cli = "") (harea : ¬jsTrim area = "") (hh : 0 < rec.horas)
    (hfind : (clientes.find? fun cl => cl.elementoPEP == cli) = some c)
    (hmax : dailyLimitFor (activeDailyLimits settings) (dayOfWeek d) ≠ 0)
    (hday : getDailyHours records d ≤ dailyLimitFor (activeDailyLimits settings) (dayOfWeek d))
    (hweek : getWeeklyHours records d ≤ activeWeeklyLimit settings) :
    validateCalendarEntry clientes records (some rec) settings cli area rec.horas d =
      .accepted cli rec.horas d (jsTrim area) := by
  rw [validateCalendarEntry_checks clientes records (some rec) settings cli area rec.horas d c
    hcli harea hh hfind, if_neg hmax]
  have hed : editingHours (some rec) = rec.horas := rfl
  rw [if_neg (by rw [hed]; push_neg; linarith), if_neg (by rw [hed]; push_neg; linarith)]

theorem C8_edit_idempotent_witness :
    validateCalendarEntry [cliACME] [⟨2, 4, "PEP1", none⟩]
        (some ⟨2, 4, "PEP1", none⟩) none "PEP1" "A" 4 2 =
      .accepted "PEP1" 4 2 (jsTrim "A") :=
  C8_edit_idempotent [cliACME] [⟨2, 4, "PEP1", none⟩] none "PEP1" "A" 2 cliACME
    ⟨2, 4, "PEP1", none⟩ (by decide) (by decide) (by norm_num) rfl
    (by norm_num [dailyLimitFor, activeDailyLimits, DAILY_LIMITS_DEFAULT, dayOfWeek])
    (by norm_num [getDailyHours, dailyLimitFor, activeDailyLimits, DAILY_LIMITS_DEFAULT,
      dayOfWeek, weekKey])
    (by norm_num [getWeeklyHours, activeWeeklyLimit, weekKey])

/-- Claim C9, counterexample: an "En Cliente" (on-site) candidate with
no location is accepted when location sharing was declined
(`ubicacionRechazada = true`) and a signature is present, so presence
of the location field is not required for acceptance. -/
theorem C9_counterexample :
    validateTimeRangeEntry [cliACME] [] "PEP1" "A" (some (8, 0)) (some (12, 0)) 5 "work"
        "En Cliente" none true (some "sig") =
      .accepted "PEP1" 4 5 "A" none (some "sig") := by
  rw [validateTimeRangeEntry_checks [cliACME] [] "PEP1" "A" (8, 0) (12, 0) 5 "work"
    "En Cliente" none true (some "sig") cliACME (by decide) (by decide) rfl]
  rw [if_neg (by norm_num [timeToMinutes] :
    ¬((timeToMinutes (12, 0) - timeToMinutes (8, 0) : ℤ) : ℚ) / 60 ≤ 0)]
  rw [if_neg (by decide : ¬jsTrim "work" = "")]
  rw [if_neg (by decide :
    ¬(!((if ([] : List String) ≠ [] then ([] : List String) else cliACME.areas).contains
      (jsTrim "A"))) = true)]
  rw [if_pos rfl]
  rw [if_neg (by simp : ¬((none : Option (ℚ × ℚ)) = none ∧ true = false))]
  rw [if_neg (by simp : ¬(some "sig" = none))]
  simp only [TRValidation.accepted.injEq]
  refine ⟨trivial, ?_, trivial, by decide, trivial, trivial⟩
  norm_num [timeToMinutes]

/-- Claim C9, amended: for an "En Cliente" (on-site) candidate passing
the earlier checks, a signature is always required, and the location is
required only when it is absent and sharing it was not declined; the
entry is accepted exactly when a signature is present and the location
is present or was declined. -/
theorem C9_onsite_evidence (clientes : List Cliente) (dynamicAreas : List String)
    (cli area : String) (hi hf : ℕ × ℕ) (d : ℕ) (desc : String)
    (ubic : Option (ℚ × ℚ)) (rech : Bool) (firma : Option String) (c : Cliente)
    (hcli : ¬cli = "") (harea : ¬jsTrim area = "")
    (hfind : (clientes.find? fun cl => cl.elementoPEP == cli) = some c)
    (hpos : 0 < ((timeToMinutes hf - timeToMinutes hi : ℤ) : ℚ) / 60)
    (hdesc : ¬jsTrim desc = "")
    (hmem : ((if dynamicAreas ≠ [] then dynamicAreas else c.areas).contains (jsTrim area)) =
      true) :
    (validateTimeRangeEntry clientes dynamicAreas cli area (some hi) (some hf) d desc
          "En Cliente" ubic rech firma =
        .accepted cli (((timeToMinutes hf - timeToMinutes hi : ℤ) : ℚ) / 60) d (jsTrim area)
          ubic firma ↔
      (firma ≠ none ∧ (ubic ≠ none ∨ rech = true))) ∧
    (ubic = none ∧ rech = false →
      validateTimeRangeEntry clientes dynamicAreas cli area (some hi) (some hf) d desc
        "En Cliente" ubic rech firma = .locationRequired) ∧
    ((ubic ≠ none ∨ rech = true) → firma = none →
      validateTimeRangeEntry clientes dynamicAreas cli area (some hi) (some hf) d desc
        "En Cliente" ubic rech firma = .firmaRequired) := by
  rw [validateTimeRangeEntry_checks clientes dynamicAreas cli area hi hf d desc
    "En Cliente" ubic rech firma c hcli harea hfind]
  rw [if_neg (not_le.mpr hpos), if_neg hdesc, if_neg (by rw [hmem]; decide), if_pos rfl]
  refine ⟨?_, ?_, ?_⟩
  · by_cases hu : ubic = none ∧ rech = false
    · rw [if_pos hu]
      refine iff_of_false (by simp) ?_
      rintro ⟨-, h | h⟩
      · exact h hu.1
      · rw [hu.2] at h
        exact Bool.false_ne_true h
    · rw [if_neg hu]
      by_cases hf0 : firma = none
      · rw [if_pos hf0]
        refine iff_of_false (by simp) ?_
        rintro ⟨h, -⟩
        exact h hf0
      · rw [if_neg hf0]
        refine iff_of_true rfl ⟨hf0, ?_⟩
        by_cases hub : ubic = none
        · right
          rcases Bool.eq_false_or_eq_true rech with h | h
          · exact h
          · exact absurd ⟨hub, h⟩ hu
        · exact Or.inl hub
  · intro hcond
    rw [if_pos hcond]
  · intro hor hf0
    have hu : ¬(ubic = none ∧ rech = false) := by
      rintro ⟨h1, h2⟩
      rcases hor with h | h
      · exact h h1
      · rw [h2] at h
        exact Bool.false_ne_true h
    rw [if_neg hu, if_pos hf0]

theorem C9_onsite_evidence_witness :
    validateTimeRangeEntry [cliACME] [] "PEP1" "A" (some (8, 0)) (some (12, 0)) 5 "work"
        "En Cliente" none false none = .locationRequired :=
  (C9_onsite_evidence [cliACME] [] "PEP1" "A" (8, 0) (12, 0) 5 "work" none false none cliACME
      (by decide) (by decide) rfl (by norm_num [timeToMinutes]) (by decide)
      (by decide)).2.1 ⟨rfl, rfl⟩

end Nomina
